import Mathlib

/-!
Verification development for the name-classification service
(`new-app-with-retry.py`): a Flask endpoint `POST /predict` that normalizes
a submitted name, builds a prompt, calls an external completion API inside
a bounded retry loop with exponential backoff, extracts and validates the
model's JSON reply, and maps every outcome to a JSON HTTP response.

The Python source is shallowly embedded: pure helpers become Lean
functions on `String`/`List Char`; the external completion call is an
oracle parameter; exceptions are explicit branches; the parsed JSON data
model of the `json` module is the inductive `PyVal`.
-/

/-! ## Whitespace, `str.strip()` and `re.sub(r"\s+", " ", ·)`

Python's `str.strip()` and the regex class `\s` cover Unicode whitespace;
the embedding models the ASCII fragment (space, tab, newline, carriage
return, vertical tab, form feed), which is exhaustive for every input
considered in this development. -/

def isPySpace (c : Char) : Bool :=
  c = ' ' || c = '\t' || c = '\n' || c = '\r' || c = Char.ofNat 11 || c = Char.ofNat 12

/-- Left strip: drop leading whitespace, as the leading half of `str.strip()`. -/
def lstripWs (l : List Char) : List Char := l.dropWhile isPySpace

/-- Right strip: drop trailing whitespace, as the trailing half of `str.strip()`. -/
def rstripWs (l : List Char) : List Char := (l.reverse.dropWhile isPySpace).reverse

/-- Python `str.strip()` on a character list. -/
def stripWs (l : List Char) : List Char := rstripWs (lstripWs l)

/-- Scanner for `re.sub(r"\s+", " ", ·)`: `inRun` records whether the
previous character was whitespace, i.e. whether the current whitespace run
has already emitted its single replacement space. -/
def collapseAux : Bool → List Char → List Char
  | _, [] => []
  | inRun, c :: rest =>
    if isPySpace c then
      if inRun then collapseAux true rest
      else ' ' :: collapseAux true rest
    else c :: collapseAux false rest

/-- Python `re.sub(r"\s+", " ", ·)`: replace every maximal run of
whitespace by a single space character. -/
def collapseWs (l : List Char) : List Char := collapseAux false l

/-- Python `str.strip()` on strings. -/
def pyStrip (s : String) : String := String.mk (stripWs s.data)

/-- The name normalization performed at lines 45-46 of the source:
`data.get('name','').strip()` followed by `re.sub(r'\s+', ' ', name).strip()`. -/
def normalizeL (l : List Char) : List Char := stripWs (collapseWs (stripWs l))

/-- String version of `normalizeL`. -/
def pyNormalize (s : String) : String := String.mk (normalizeL s.data)

/-- Modelled from the spec's words (section 3, NormalizedName): "string with
leading/trailing whitespace removed and internal runs of whitespace collapsed
to a single space", i.e. collapse every whitespace run, then trim the edges.
Used as the specification side of the refinement claims about normalization. -/
def specNormalize (s : String) : String := String.mk (stripWs (collapseWs s.data))

/-! ## The regex of `extract_json_from_response`

The source (lines 27-35) runs
`re.search(r"```json\s*({.*?})\s*```", text, re.DOTALL | re.IGNORECASE)`.
The pattern is literal apart from `\s*` and the non-greedy `({.*?})`, so the
backtracking search is deterministic: at the leftmost position where the
case-insensitive fence marker matches, skip whitespace, require a brace, and
close the group at the earliest closing brace that is followed by optional
whitespace and the closing fence.  Braces and backticks are written via
`Char.ofNat` (codes 123, 125, 96). -/

def lbrace : Char := Char.ofNat 123

def rbrace : Char := Char.ofNat 125

def btick : Char := Char.ofNat 96

/-- The literal part of the pattern before the group: three backticks then
the letters of "json" (matched case-insensitively). -/
def fenceOpenPat : List Char := [btick, btick, btick, 'j', 's', 'o', 'n']

/-- Match a literal pattern case-insensitively at the head of the input,
returning the remaining input on success (re.IGNORECASE on ASCII letters). -/
def matchCI : List Char → List Char → Option (List Char)
  | [], s => some s
  | _ :: _, [] => none
  | p :: ps, c :: cs => if p.toLower = c.toLower then matchCI ps cs else none

/-- Does the closing fence (three backticks) start here? -/
def fenceCloseAt (l : List Char) : Bool :=
  match l with
  | a :: b :: c :: _ => a = btick && b = btick && c = btick
  | _ => false

/-- Scan for the earliest closing brace whose tail, after optional
whitespace, starts with the closing fence — the non-greedy `.*?` of the
group.  `acc` holds the group body read so far, reversed. -/
def scanBody (acc : List Char) : List Char → Option (List Char)
  | [] => none
  | c :: rest =>
    if c = rbrace && fenceCloseAt (rest.dropWhile isPySpace) then some acc.reverse
    else scanBody (c :: acc) rest

/-- Try to match the whole pattern at this position of the input, returning
the regex group `({.*?})` on success. -/
def fenceAt (s : List Char) : Option (List Char) :=
  match matchCI fenceOpenPat s with
  | none => none
  | some afterFence =>
    match afterFence.dropWhile isPySpace with
    | [] => none
    | c :: t =>
      if c = lbrace then
        match scanBody [] t with
        | some body => some (lbrace :: (body ++ [rbrace]))
        | none => none
      else none

/-- `re.search`: try the pattern at each successive start position and
return the group of the first match. -/
def reSearchFence : List Char → Option (List Char)
  | [] => none
  | c :: rest =>
    match fenceAt (c :: rest) with
    | some g => some g
    | none => reSearchFence rest

/-- Lines 27-35 of the source: `extract_json_from_response(text)`.  If the
fenced pattern matches, return its group; otherwise strip the text and
return it (the code returns the stripped text whether or not it starts with
an opening brace and ends with a closing one — both of the remaining
`return text` statements run after `text = text.strip()`). -/
def extractL (text : List Char) : List Char :=
  match reSearchFence text with
  | some g => g
  | none => stripWs text

/-- String version of `extractL`. -/
def extract_json_from_response (text : String) : String :=
  String.mk (extractL text.data)

/-! ## Parsed JSON values (the data model of Python's `json` module)

`json.loads` maps JSON null/true/false/numbers/strings/arrays/objects to
Python `None`/`bool`/`int`-or-`float`/`str`/`list`/`dict`.  Numbers are
carried by their source lexeme: the only facts about a number the program
ever consults are its truthiness (zero or not) and its display inside an
error message, both recoverable from the lexeme. -/

inductive PyVal where
  | vnull : PyVal
  | bool (b : Bool) : PyVal
  | num (lexeme : String) : PyVal
  | str (s : String) : PyVal
  | list (xs : List PyVal) : PyVal
  | dict (kvs : List (String × PyVal)) : PyVal

/-- A JSON number literal denotes zero exactly when its significand (the
part before any exponent marker) has at least one digit and all its digits
are 0; the nonstandard `NaN`/`Infinity` literals have no digits and are
nonzero. -/
def numIsZero (lexeme : String) : Bool :=
  let m := lexeme.data.takeWhile (fun c => c ≠ 'e' && c ≠ 'E')
  (m.filter Char.isDigit ≠ []) && (m.filter Char.isDigit).all (· = '0')

/-- Python truthiness (`if not data:`) of a parsed JSON value. -/
def pyTruthy : PyVal → Bool
  | .vnull => false
  | .bool b => b
  | .num l => ! numIsZero l
  | .str s => ! s.data.isEmpty
  | .list xs => ! xs.isEmpty
  | .dict kvs => ! kvs.isEmpty

/-- `dict.get` semantics on the association list built by the decoder
(keys are unique after `dictInsert`): first match. -/
def dictGet (kvs : List (String × PyVal)) (k : String) : Option PyVal :=
  match kvs with
  | [] => none
  | (k', v) :: rest => if k' = k then some v else dictGet rest k

/-- Building a Python dict pair by pair: a repeated key keeps its original
position and takes the latest value, as in CPython. -/
def dictInsert (kvs : List (String × PyVal)) (k : String) (v : PyVal) :
    List (String × PyVal) :=
  match kvs with
  | [] => [(k, v)]
  | (k', v') :: rest =>
    if k' = k then (k', v) :: rest else (k', v') :: dictInsert rest k v

/-- A single apostrophe, used when rendering Python error text. -/
def squo : String := String.singleton (Char.ofNat 39)

/-- Python `repr` of a decoded JSON value, as far as the program can surface
it (inside the f-string of a `ValueError`).  The escaping Python `repr`
applies to special characters inside string literals, and the float
formatting of numeric values, are abstracted by the raw text and the source
lexeme; no claim in this development exercises either. -/
def pyRepr : PyVal → String
  | .vnull => "None"
  | .bool b => if b then "True" else "False"
  | .num l => l
  | .str s => squo ++ s ++ squo
  | .list xs =>
    "[" ++ String.intercalate ", " (xs.attach.map (fun p => pyRepr p.1)) ++ "]"
  | .dict kvs =>
    "\x7b" ++
      String.intercalate ", "
        (kvs.attach.map (fun p => squo ++ p.1.1 ++ squo ++ ": " ++ pyRepr p.1.2)) ++
      "\x7d"
termination_by v => sizeOf v
decreasing_by
  · have := List.sizeOf_lt_of_mem p.2
    simp only [PyVal.list.sizeOf_spec]
    omega
  · have h1 := List.sizeOf_lt_of_mem p.2
    have h2 : sizeOf p.1.2 < sizeOf p.1 := by
      obtain ⟨a, b⟩ := p.1
      simp only [Prod.mk.sizeOf_spec]
      omega
    simp only [PyVal.dict.sizeOf_spec]
    omega

/-- Python `str` of a decoded JSON value: the string itself for `str`,
`repr` otherwise. -/
def pyStr : PyVal → String
  | .str s => s
  | v => pyRepr v

/-- Python `str` applied to the result of `dict.get` (which is `None` when
the key is absent). -/
def pyStrOfGet : Option PyVal → String
  | none => "None"
  | some v => pyStr v

/-- The Python type name of a decoded JSON value, as it appears in an
`AttributeError` message. -/
def pyTypeName : PyVal → String
  | .vnull => "NoneType"
  | .bool _ => "bool"
  | .num l =>
    if l.data.any (fun c => c = '.' || c = 'e' || c = 'E' || c.isAlpha) then "float" else "int"
  | .str _ => "str"
  | .list _ => "list"
  | .dict _ => "dict"

/-! ## `json.loads`

A strict JSON decoder following Python's `json` module: the standard JSON
grammar, the nonstandard `NaN` / `Infinity` / `-Infinity` constants the
module accepts by default, rejection of raw control characters inside
strings (the default `strict=True`), insignificant whitespace restricted to
space, tab, newline and carriage return, and last-value-wins duplicate
object keys.  Recursion is bounded by a fuel argument large enough for any
input of the given length. -/

def jsonWsChar (c : Char) : Bool := c = ' ' || c = '\t' || c = '\n' || c = '\r'

def hexDigitVal (c : Char) : Option Nat :=
  let n := c.toNat
  if 48 ≤ n && n ≤ 57 then some (n - 48)
  else if 97 ≤ n && n ≤ 102 then some (n - 87)
  else if 65 ≤ n && n ≤ 70 then some (n - 55)
  else none

/-- Read exactly four hexadecimal digits, giving their value and the rest. -/
def readHex4 : List Char → Option (Nat × List Char)
  | a :: b :: c :: d :: rest =>
    match hexDigitVal a, hexDigitVal b, hexDigitVal c, hexDigitVal d with
    | some x, some y, some z, some w => some (((x * 16 + y) * 16 + z) * 16 + w, rest)
    | _, _, _, _ => none
  | _ => none

/-- A code point produced by `\uXXXX` escapes.  Python strings may hold lone
surrogates, which a Lean `Char` cannot; those map to `Char.ofNat`'s default.
No claim exercises them. -/
def charOfCode (n : Nat) : Char := Char.ofNat n

/-- Body of a JSON string after the opening quote: the decoded characters
and the input following the closing quote.  Rejects unescaped control
characters (`strict=True`) and handles the escape sequences of the JSON
grammar, pairing UTF-16 surrogate escapes as Python does. -/
def parseJStr : Nat → List Char → Option (List Char × List Char)
  | 0, _ => none
  | _, [] => none
  | fuel + 1, c :: rest =>
    if c = '"' then some ([], rest)
    else if c = '\\' then
      match rest with
      | [] => none
      | e :: rest2 =>
        let simpleEsc : Option Char :=
          if e = '"' then some '"'
          else if e = '\\' then some '\\'
          else if e = '/' then some '/'
          else if e = 'b' then some (Char.ofNat 8)
          else if e = 'f' then some (Char.ofNat 12)
          else if e = 'n' then some '\n'
          else if e = 'r' then some '\r'
          else if e = 't' then some '\t'
          else none
        match simpleEsc with
        | some d =>
          match parseJStr fuel rest2 with
          | some (content, after) => some (d :: content, after)
          | none => none
        | none =>
          if e = 'u' then
            match readHex4 rest2 with
            | none => none
            | some (n1, rest3) =>
              if 0xD800 ≤ n1 && n1 ≤ 0xDBFF then
                match rest3 with
                | '\\' :: 'u' :: rest4 =>
                  match readHex4 rest4 with
                  | some (n2, rest5) =>
                    if 0xDC00 ≤ n2 && n2 ≤ 0xDFFF then
                      match parseJStr fuel rest5 with
                      | some (content, after) =>
                        some (charOfCode (0x10000 + (n1 - 0xD800) * 0x400 + (n2 - 0xDC00)) :: content, after)
                      | none => none
                    else
                      match parseJStr fuel rest3 with
                      | some (content, after) => some (charOfCode n1 :: content, after)
                      | none => none
                  | none =>
                    match parseJStr fuel rest3 with
                    | some (content, after) => some (charOfCode n1 :: content, after)
                    | none => none
                | _ =>
                  match parseJStr fuel rest3 with
                  | some (content, after) => some (charOfCode n1 :: content, after)
                  | none => none
              else
                match parseJStr fuel rest3 with
                | some (content, after) => some (charOfCode n1 :: content, after)
                | none => none
          else none
    else if c.toNat < 32 then none
    else
      match parseJStr fuel rest with
      | some (content, after) => some (c :: content, after)
      | none => none

/-- The number grammar of the `json` module,
`(-?(?:0|[1-9]\d*))(\.\d+)?([eE][-+]?\d+)?`, matched greedily at the head
of the input; returns the lexeme and the rest. -/
def parseJNum (s : List Char) : Option (List Char × List Char) :=
  let (sign, s1) :=
    match s with
    | '-' :: r => (['-'], r)
    | _ => (([] : List Char), s)
  match s1 with
  | c :: r =>
    if c = '0' then
      let intPart := [c]
      let s2 := r
      let (frac, s3) :=
        match s2 with
        | '.' :: r2 =>
          let ds := r2.takeWhile Char.isDigit
          if ds.isEmpty then (([] : List Char), s2)
          else ('.' :: ds, r2.dropWhile Char.isDigit)
        | _ => ([], s2)
      let (expPart, s4) :=
        match s3 with
        | e :: r3 =>
          if e = 'e' || e = 'E' then
            let (sgn, r4) :=
              match r3 with
              | '+' :: r5 => (['+'], r5)
              | '-' :: r5 => (['-'], r5)
              | _ => (([] : List Char), r3)
            let ds := r4.takeWhile Char.isDigit
            if ds.isEmpty then (([] : List Char), s3)
            else (e :: (sgn ++ ds), r4.dropWhile Char.isDigit)
          else ([], s3)
        | _ => ([], s3)
      some (sign ++ intPart ++ frac ++ expPart, s4)
    else if c.isDigit then
      let intPart := c :: r.takeWhile Char.isDigit
      let s2 := r.dropWhile Char.isDigit
      let (frac, s3) :=
        match s2 with
        | '.' :: r2 =>
          let ds := r2.takeWhile Char.isDigit
          if ds.isEmpty then (([] : List Char), s2)
          else ('.' :: ds, r2.dropWhile Char.isDigit)
        | _ => ([], s2)
      let (expPart, s4) :=
        match s3 with
        | e :: r3 =>
          if e = 'e' || e = 'E' then
            let (sgn, r4) :=
              match r3 with
              | '+' :: r5 => (['+'], r5)
              | '-' :: r5 => (['-'], r5)
              | _ => (([] : List Char), r3)
            let ds := r4.takeWhile Char.isDigit
            if ds.isEmpty then (([] : List Char), s3)
            else (e :: (sgn ++ ds), r4.dropWhile Char.isDigit)
          else ([], s3)
        | _ => ([], s3)
      some (sign ++ intPart ++ frac ++ expPart, s4)
    else none
  | [] => none

mutual

/-- Decode one JSON value at the head of the input (whitespace already
skipped), returning it and the remaining input. -/
def parseVal : Nat → List Char → Option (PyVal × List Char)
  | 0, _ => none
  | fuel + 1, s =>
    match s with
    | [] => none
    | c :: r =>
      if c = '"' then
        match parseJStr fuel r with
        | some (content, after) => some (.str (String.mk content), after)
        | none => none
      else if c = lbrace then
        match r.dropWhile jsonWsChar with
        | d :: r2 =>
          if d = rbrace then some (.dict [], r2)
          else parseMembers fuel (d :: r2) []
        | [] => none
      else if c = '[' then
        match r.dropWhile jsonWsChar with
        | ']' :: r2 => some (.list [], r2)
        | r2 => parseElemsAcc fuel r2 []
      else
        match s with
        | 't' :: 'r' :: 'u' :: 'e' :: rest => some (.bool true, rest)
        | 'f' :: 'a' :: 'l' :: 's' :: 'e' :: rest => some (.bool false, rest)
        | 'n' :: 'u' :: 'l' :: 'l' :: rest => some (.vnull, rest)
        | 'N' :: 'a' :: 'N' :: rest => some (.num "NaN", rest)
        | 'I' :: 'n' :: 'f' :: 'i' :: 'n' :: 'i' :: 't' :: 'y' :: rest =>
          some (.num "Infinity", rest)
        | '-' :: 'I' :: 'n' :: 'f' :: 'i' :: 'n' :: 'i' :: 't' :: 'y' :: rest =>
          some (.num "-Infinity", rest)
        | _ =>
          match parseJNum s with
          | some (lexeme, rest) => some (.num (String.mk lexeme), rest)
          | none => none

/-- Decode the elements of a JSON array after its opening bracket (input
positioned at the start of a value); `acc` holds the elements read so far. -/
def parseElemsAcc : Nat → List Char → List PyVal → Option (PyVal × List Char)
  | 0, _, _ => none
  | fuel + 1, s, acc =>
    match parseVal fuel s with
    | none => none
    | some (v, rest) =>
      match rest.dropWhile jsonWsChar with
      | ']' :: r2 => some (.list (acc ++ [v]), r2)
      | ',' :: r2 => parseElemsAcc fuel (r2.dropWhile jsonWsChar) (acc ++ [v])
      | _ => none

/-- Decode the members of a JSON object after its opening brace (input
positioned at the first key's quote). -/
def parseMembers : Nat → List Char → List (String × PyVal) →
    Option (PyVal × List Char)
  | 0, _, _ => none
  | fuel + 1, s, acc =>
    match s with
    | '"' :: r =>
      match parseJStr fuel r with
      | none => none
      | some (key, r2) =>
        match r2.dropWhile jsonWsChar with
        | ':' :: r3 =>
          match parseVal fuel (r3.dropWhile jsonWsChar) with
          | none => none
          | some (v, r4) =>
            let acc2 := dictInsert acc (String.mk key) v
            match r4.dropWhile jsonWsChar with
            | d :: r5 =>
              if d = rbrace then some (.dict acc2, r5)
              else if d = ',' then
                match r5.dropWhile jsonWsChar with
                | '"' :: r6 => parseMembers fuel ('"' :: r6) acc2
                | _ => none
              else none
            | [] => none
        | _ => none
    | _ => none

end

/-- `json.loads`: skip leading whitespace, decode one value, require only
whitespace after it.  `none` models `json.JSONDecodeError`. -/
def json_loads (s : String) : Option PyVal :=
  match parseVal (8 * s.data.length + 64) (s.data.dropWhile jsonWsChar) with
  | some (v, rest) => if (rest.dropWhile jsonWsChar).isEmpty then some v else none
  | none => none

/-! ## The prompt and the endpoint

The handler body of `POST /predict` (lines 37-159).  The Flask/OpenAI
collaborators are abstracted at their call boundaries:

* `request.get_json()` becomes a `BodyInput`: with the default
  `silent=False`, Werkzeug raises `BadRequest` when the body is not valid
  JSON (constructor `raises`); otherwise the parsed value is supplied
  (constructor `value` — note body `null` parses to Python `None`).
* `client.chat.completions.create` plus the
  `response.choices[0].message.content` projection becomes an oracle
  `Nat → CallResult` from the attempt index: `raise` for any exception
  out of the call layer, `ok content` for a successful call returning
  text.  The prompt is the same on every attempt, so an oracle indexed by
  attempt alone loses no generality; the prompt string passed to each
  issued call is recorded in the outcome.
* `time.sleep(wait_time)` is recorded as an element of a sleep trace.
* `jsonify(...), code` becomes an `HttpResponse`.  (Flask's default JSON
  provider serializes dict keys sorted; for every body the handler builds,
  the written key order already is alphabetical, so insertion order is kept.)

Python exceptions inside the handler are explicit branches ending in the
catch-all `except Exception` response of lines 157-159. -/

/-- The prompt template up to the embedded name (line 56-57 of the source). -/
def promptPre : String :=
  "\n        You are an expert in name classification. Determine if the name "

/-- The prompt template after the embedded name (lines 57-76 of the
source), assembled by interleaving its apostrophes. -/
def promptPost : String :=
  String.intercalate squo
    [" is a realistic human name, used in any culture.\n        Consider the name regardless of its capitalization. \n\n        A name is considered unrealistic if:\n        * It contains characters other than letters (a-z, A-Z), spaces, hyphens (-), and dots (.).\n        * It is less than three letter in total (excluding spaces, hyphens, and dots).\n\n        Examples of realistic names: ",
     "Mohiuddin Mohi", ", ", "Aisha Khan", ", ", "Sheik Kaykaus", ", ",
     "Mr. Hanif Uddin", ", ", "John-Doe", ", ", "Mary.Anne Smith", ", ",
     "m. a. h. hashan", ", ", "p. k. kibria", ", ", "M. k. robi mullah",
     ".\n        Examples of unrealistic names: ",
     "Abdullah123", "(contains numbers), ",
     "Table Chair", "(common phrase), ",
     "Qwert", " (Keyboard Pattern), ",
     "asif.azad", "(resembles email), ",
     "m.ahmed",
     "(resembles email).\n\n        Respond in JSON format. If the name is ",
     "Realistic",
     ", the JSON should only contain:\n        \x7b\n            \"prediction\": \"Realistic\"\n        \x7d\n        If the name is ",
     "Not Realistic",
     ", the JSON should contain:\n        \x7b\n            \"prediction\": \"Not Realistic\",\n            \"reason\": \"<brief reason (max 50 character) why the name is not realistic>\"\n        \x7d\n        "]

/-- The f-string of lines 56-76: the fixed template with the normalized
name spliced between apostrophes. -/
def buildPrompt (name : String) : String :=
  promptPre ++ squo ++ name ++ squo ++ promptPost

/-- The fixed system message of the completion call (line 89). -/
def systemMsg : String :=
  "You are a precise name classification assistant outputting only JSON."

/-- `max_retries = 3` (line 78). -/
def maxRetries : Nat := 3

/-- Result of one completion-call attempt as seen by the handler. -/
inductive CallResult where
  | raise (msg : String) : CallResult
  | ok (content : String) : CallResult

/-- What `request.get_json()` does for this request. -/
inductive BodyInput where
  | raises : BodyInput
  | value (v : PyVal) : BodyInput

/-- An HTTP response: status code and JSON body. -/
structure HttpResponse where
  status : Nat
  body : PyVal

/-- The mutable locals of the retry loop (lines 79-81) plus the observable
traces: backoff sleeps performed and prompts of issued completion calls. -/
structure LoopState where
  prediction : Option String
  errMsg : Option String
  aiReason : Option PyVal
  sleeps : List Nat
  prompts : List String

/-- How the retry loop ends: falling through to the post-loop code, or
returning a response directly (line 134). -/
inductive LoopOut where
  | done (st : LoopState) : LoopOut
  | early (resp : HttpResponse) (st : LoopState) : LoopOut

/-- `jsonify({"error": m})`. -/
def errObj (m : String) : PyVal := .dict [("error", .str m)]

/-- The catch-all response of lines 157-159. -/
def serverErr : HttpResponse := ⟨500, errObj "An unexpected server error occurred"⟩

/-- `str` of the `AttributeError` raised by `result.get` when the decoded
JSON value is not a dict. -/
def attrGetMsg (v : PyVal) : String :=
  squo ++ pyTypeName v ++ squo ++ " object has no attribute " ++ squo ++ "get" ++ squo

/-- The prefix of line 126: `f"OpenAI API error: {str(api_error)}"`. -/
def apiErrPre : String := "OpenAI API error: "

/-- Classification of one iteration of the loop body (lines 84-122):
either a valid prediction was parsed (`break` at line 111), a shape error
was recorded (`break` at lines 117/122), or an exception reached the
`except Exception` handler of line 124.  The third case covers both a
failing completion call and the `AttributeError` from `result.get` when
`json.loads` returned a non-dict, since that exception is not caught by
the inner `except` clauses. -/
inductive AttemptRes where
  | parsedOk (pred : String) (reason : Option PyVal) : AttemptRes
  | shapeErr (msg : String) : AttemptRes
  | apiErr (msg : String) : AttemptRes

/-- One iteration of the loop body on the oracle's answer for this attempt. -/
def attemptOf (res : CallResult) : AttemptRes :=
  match res with
  | .raise m => .apiErr m
  | .ok content =>
    match json_loads (extract_json_from_response (pyStrip content)) with
    | none => .shapeErr "Invalid JSON response format from model"
    | some (.dict kvs) =>
      match dictGet kvs "prediction" with
      | some (.str s) =>
        if s = "Realistic" then .parsedOk "Realistic" none
        else if s = "Not Realistic" then .parsedOk "Not Realistic" (dictGet kvs "reason")
        else .shapeErr ("Invalid prediction value from model: " ++ s)
      | p => .shapeErr ("Invalid prediction value from model: " ++ pyStrOfGet p)
    | some v => .apiErr (attrGetMsg v)

/-- The retry loop (`for attempt in range(max_retries)`, lines 83-134),
from the given attempt index and loop state.  `fuel` is the number of loop
iterations still to run — the loop is entered with
`fuel = maxRetries, attempt = 0` and maintains `fuel = maxRetries - attempt`
— so the recursion is structural.  On an api-level error the last recorded
message is kept; with attempts remaining (`attempt < max_retries - 1`) the
loop sleeps `2 ** attempt` seconds and continues, on the last attempt it
returns the 500 response immediately. -/
def runAttempts (oracle : Nat → CallResult) (prompt : String) :
    Nat → Nat → LoopState → LoopOut
  | 0, _, st => .done st
  | fuel + 1, attempt, st =>
    let st1 := { st with prompts := st.prompts ++ [prompt] }
    match attemptOf (oracle attempt) with
    | .parsedOk p r => .done { st1 with prediction := some p, aiReason := r, errMsg := none }
    | .shapeErr m => .done { st1 with errMsg := some m }
    | .apiErr m =>
      let st2 := { st1 with errMsg := some (apiErrPre ++ m) }
      if attempt < maxRetries - 1 then
        runAttempts oracle prompt fuel (attempt + 1)
          { st2 with sleeps := st2.sleeps ++ [2 ^ attempt] }
      else .early ⟨500, errObj (apiErrPre ++ m)⟩ st2

/-- Python `x or default` on an optional string (line 154). -/
def pyOrElse (o : Option String) (d : String) : String :=
  match o with
  | some s => if s.data.isEmpty then d else s
  | none => d

/-- The observable outcome of one request: the HTTP response, the backoff
sleeps performed (in seconds, in order), and the prompts of the external
completion calls issued (in order). -/
structure PredictOutcome where
  response : HttpResponse
  sleeps : List Nat
  prompts : List String

/-- Loop state at entry: `prediction_result = None`,
`openai_error_message = None`, `ai_reason = None` (lines 79-81). -/
def initLoopState : LoopState := ⟨none, none, none, [], []⟩

/-- The code after the loop (lines 136-154): an early return passes
through; otherwise the final result is dispatched on `prediction_result`. -/
def postLoop (name : String) : LoopOut → PredictOutcome
  | .early resp st => ⟨resp, st.sleeps, st.prompts⟩
  | .done st =>
    if st.prediction = some "Realistic" then
      ⟨⟨200, .dict [("name", .str name), ("prediction", .str "Realistic"),
                    ("reason", .str " ")]⟩, st.sleeps, st.prompts⟩
    else if st.prediction = some "Not Realistic" then
      ⟨⟨200, .dict [("name", .str name), ("prediction", .str "Not Realistic")]⟩,
        st.sleeps, st.prompts⟩
    else
      ⟨⟨500, errObj ("Failed to get prediction. Last error: " ++
          pyOrElse st.errMsg "Unknown error after retries")⟩,
        st.sleeps, st.prompts⟩

/-- The endpoint handler `predict()` (lines 37-159). -/
def predict (body : BodyInput) (oracle : Nat → CallResult) : PredictOutcome :=
  match body with
  | .raises => ⟨serverErr, [], []⟩
  | .value data =>
    if pyTruthy data then
      match data with
      | .dict kvs =>
        match (dictGet kvs "name").getD (PyVal.str "") with
        | .str raw =>
          let name := pyNormalize raw
          if name.data.isEmpty then ⟨⟨400, errObj "No name provided"⟩, [], []⟩
          else postLoop name (runAttempts oracle (buildPrompt name) maxRetries 0 initLoopState)
        | _ => ⟨serverErr, [], []⟩
      | _ => ⟨serverErr, [], []⟩
    else ⟨⟨400, errObj "Invalid JSON payload"⟩, [], []⟩

/-! ## Helper lemmas on the loop and the handler -/

theorem attemptOf_parsefail {content : String}
    (h : json_loads (extract_json_from_response (pyStrip content)) = none) :
    attemptOf (.ok content) = .shapeErr "Invalid JSON response format from model" := by
  simp [attemptOf, h]

theorem attemptOf_invalid {content s : String} {kvs : List (String × PyVal)}
    (h : json_loads (extract_json_from_response (pyStrip content)) = some (.dict kvs))
    (hp : dictGet kvs "prediction" = some (.str s))
    (h1 : s ≠ "Realistic") (h2 : s ≠ "Not Realistic") :
    attemptOf (.ok content) = .shapeErr ("Invalid prediction value from model: " ++ s) := by
  simp [attemptOf, h, hp, h1, h2]

theorem attemptOf_realistic {content : String} {kvs : List (String × PyVal)}
    (h : json_loads (extract_json_from_response (pyStrip content)) = some (.dict kvs))
    (hp : dictGet kvs "prediction" = some (.str "Realistic")) :
    attemptOf (.ok content) = .parsedOk "Realistic" none := by
  simp [attemptOf, h, hp]

theorem attemptOf_notRealistic {content : String} {kvs : List (String × PyVal)}
    (h : json_loads (extract_json_from_response (pyStrip content)) = some (.dict kvs))
    (hp : dictGet kvs "prediction" = some (.str "Not Realistic")) :
    attemptOf (.ok content) = .parsedOk "Not Realistic" (dictGet kvs "reason") := by
  simp [attemptOf, h, hp]

theorem runAttempts_parsedOk {oracle : Nat → CallResult} {prompt : String}
    {fuel attempt : Nat} {st : LoopState} {p : String} {r : Option PyVal}
    (h : attemptOf (oracle attempt) = .parsedOk p r) :
    runAttempts oracle prompt (fuel + 1) attempt st =
      .done { st with prompts := st.prompts ++ [prompt],
                      prediction := some p, aiReason := r, errMsg := none } := by
  rw [runAttempts]
  simp [h]

theorem runAttempts_shapeErr {oracle : Nat → CallResult} {prompt : String}
    {fuel attempt : Nat} {st : LoopState} {m : String}
    (h : attemptOf (oracle attempt) = .shapeErr m) :
    runAttempts oracle prompt (fuel + 1) attempt st =
      .done { st with prompts := st.prompts ++ [prompt], errMsg := some m } := by
  rw [runAttempts]
  simp [h]

theorem runAttempts_apiErr_mid {oracle : Nat → CallResult} {prompt : String}
    {fuel attempt : Nat} {st : LoopState} {m : String}
    (hlt : attempt < 2) (h : attemptOf (oracle attempt) = .apiErr m) :
    runAttempts oracle prompt (fuel + 1) attempt st =
      runAttempts oracle prompt fuel (attempt + 1)
        { st with prompts := st.prompts ++ [prompt],
                  errMsg := some (apiErrPre ++ m),
                  sleeps := st.sleeps ++ [2 ^ attempt] } := by
  rw [runAttempts]
  have hlt2 : attempt < maxRetries - 1 := by simp [maxRetries]; omega
  simp [hlt2, h]

theorem runAttempts_apiErr_last {oracle : Nat → CallResult} {prompt : String}
    {fuel : Nat} {st : LoopState} {m : String}
    (h : attemptOf (oracle 2) = .apiErr m) :
    runAttempts oracle prompt (fuel + 1) 2 st =
      .early ⟨500, errObj (apiErrPre ++ m)⟩
        { st with prompts := st.prompts ++ [prompt],
                  errMsg := some (apiErrPre ++ m) } := by
  rw [runAttempts]
  simp [maxRetries, h]

theorem dictGet_isSome_ne_nil {kvs : List (String × PyVal)} {k : String} {v : PyVal}
    (h : dictGet kvs k = some v) : kvs ≠ [] := by
  intro hk
  subst hk
  simp [dictGet] at h

/-- With a truthy dict body whose `name` value is a string normalizing to a
non-empty name, the handler reaches the retry loop and its result is the
post-loop dispatch. -/
theorem predict_reaches_loop {kvs : List (String × PyVal)} {raw : String}
    {oracle : Nat → CallResult}
    (hname : dictGet kvs "name" = some (.str raw))
    (hnn : pyNormalize raw ≠ "") :
    predict (.value (.dict kvs)) oracle =
      postLoop (pyNormalize raw)
        (runAttempts oracle (buildPrompt (pyNormalize raw)) 3 0 initLoopState) := by
  have hne : kvs ≠ [] := dictGet_isSome_ne_nil hname
  have hdata : (pyNormalize raw).data ≠ [] := by
    intro hd
    exact hnn (String.ext hd)
  have ht : pyTruthy (.dict kvs) = true := by simp [pyTruthy, hne]
  have hie : (pyNormalize raw).data.isEmpty = false := by
    rw [List.isEmpty_eq_false]
    exact hdata
  simp [predict, ht, hname, hie, maxRetries]

/-! ## Claims -/

/-- C1: for a request with a valid name, if the external call raises on
attempts 1 and 2 and succeeds on attempt 3 with a reply whose extracted
JSON carries prediction "Realistic" or "Not Realistic", the loop performs
exactly the two backoff sleeps 1s then 2s (2^(attempt-1) seconds after
failed attempt number attempt) and the outcome is a 200 success; and if
the call raises on all three attempts, no sleep follows the third failure
(the sleep trace is still exactly [1, 2]) and the endpoint immediately
returns HTTP 500 whose error message is the last recorded API error. -/
theorem claim1_retry_backoff (kvs : List (String × PyVal)) (raw : String)
    (oracle : Nat → CallResult) (e1 e2 e3 r : String)
    (kvs2 : List (String × PyVal)) (pv : String)
    (hname : dictGet kvs "name" = some (.str raw))
    (hnn : pyNormalize raw ≠ "") :
    (oracle 0 = .raise e1 → oracle 1 = .raise e2 → oracle 2 = .ok r →
      json_loads (extract_json_from_response (pyStrip r)) = some (.dict kvs2) →
      dictGet kvs2 "prediction" = some (.str pv) →
      (pv = "Realistic" ∨ pv = "Not Realistic") →
      (predict (.value (.dict kvs)) oracle).sleeps = [1, 2] ∧
      (predict (.value (.dict kvs)) oracle).response.status = 200 ∧
      (predict (.value (.dict kvs)) oracle).prompts.length = 3) ∧
    (oracle 0 = .raise e1 → oracle 1 = .raise e2 → oracle 2 = .raise e3 →
      (predict (.value (.dict kvs)) oracle).sleeps = [1, 2] ∧
      (predict (.value (.dict kvs)) oracle).response =
        ⟨500, errObj (apiErrPre ++ e3)⟩ ∧
      (predict (.value (.dict kvs)) oracle).prompts.length = 3) := by
  constructor
  · intro ho0 ho1 ho2 hparse hpred hvalid
    have h0 : attemptOf (oracle 0) = .apiErr e1 := by rw [ho0]; rfl
    have h1 : attemptOf (oracle 1) = .apiErr e2 := by rw [ho1]; rfl
    rw [predict_reaches_loop hname hnn,
      runAttempts_apiErr_mid (by omega) h0,
      runAttempts_apiErr_mid (by omega) h1]
    rcases hvalid with hR | hNR
    · subst hR
      have h2 : attemptOf (oracle 2) = .parsedOk "Realistic" none := by
        rw [ho2]; exact attemptOf_realistic hparse hpred
      rw [runAttempts_parsedOk h2]
      simp [postLoop, initLoopState]
    · subst hNR
      have h2 : attemptOf (oracle 2) = .parsedOk "Not Realistic" (dictGet kvs2 "reason") := by
        rw [ho2]; exact attemptOf_notRealistic hparse hpred
      rw [runAttempts_parsedOk h2]
      simp [postLoop, initLoopState]
  · intro ho0 ho1 ho2
    have h0 : attemptOf (oracle 0) = .apiErr e1 := by rw [ho0]; rfl
    have h1 : attemptOf (oracle 1) = .apiErr e2 := by rw [ho1]; rfl
    have h2 : attemptOf (oracle 2) = .apiErr e3 := by rw [ho2]; rfl
    rw [predict_reaches_loop hname hnn,
      runAttempts_apiErr_mid (by omega) h0,
      runAttempts_apiErr_mid (by omega) h1,
      runAttempts_apiErr_last h2]
    simp [postLoop, initLoopState]

/-- Oracle failing twice, then answering with a valid Realistic reply. -/
def c1OracleA : Nat → CallResult := fun n =>
  if n = 0 then .raise "boom1"
  else if n = 1 then .raise "boom2"
  else .ok "\x7b\"prediction\": \"Realistic\"\x7d"

/-- Oracle failing on every attempt. -/
def c1OracleB : Nat → CallResult := fun _ => .raise "down"

/-- Witness for C1 at a concrete request and the two concrete oracles. -/
theorem claim1_retry_backoff_witness :
    ((predict (.value (.dict [("name", PyVal.str "John")])) c1OracleA).sleeps = [1, 2] ∧
     (predict (.value (.dict [("name", PyVal.str "John")])) c1OracleA).response.status = 200 ∧
     (predict (.value (.dict [("name", PyVal.str "John")])) c1OracleA).prompts.length = 3) ∧
    ((predict (.value (.dict [("name", PyVal.str "John")])) c1OracleB).sleeps = [1, 2] ∧
     (predict (.value (.dict [("name", PyVal.str "John")])) c1OracleB).response =
       ⟨500, errObj (apiErrPre ++ "down")⟩ ∧
     (predict (.value (.dict [("name", PyVal.str "John")])) c1OracleB).prompts.length = 3) := by
  constructor
  · exact (claim1_retry_backoff [("name", PyVal.str "John")] "John" c1OracleA
      "boom1" "boom2" "unused" "\x7b\"prediction\": \"Realistic\"\x7d"
      [("prediction", PyVal.str "Realistic")] "Realistic" rfl (by decide)).1
      rfl rfl rfl rfl rfl (Or.inl rfl)
  · exact (claim1_retry_backoff [("name", PyVal.str "John")] "John" c1OracleB
      "down" "down" "down" "unused" [] "unused" rfl (by decide)).2 rfl rfl rfl

theorem pyOrElse_some {m d : String} (h : m ≠ "") : pyOrElse (some m) d = m := by
  have hd : m.data ≠ [] := fun hd => h (String.ext hd)
  simp [pyOrElse, hd]

theorem append_ne_empty_left (a b : String) (h : a ≠ "") : a ++ b ≠ "" := by
  intro hab
  have hd := congrArg String.data hab
  simp only [String.data_append] at hd
  exact h (String.ext (List.append_eq_nil.mp hd).1)

/-- C2: on any attempt where the external call returns successfully but the
extracted reply either fails JSON parsing or parses to an object whose
`prediction` string is not exactly "Realistic" or "Not Realistic"
(case-sensitive), the loop terminates at once with no further attempt and
no backoff sleep; at the endpoint this yields HTTP 500 with the recorded
message "Invalid JSON response format from model" for malformed JSON and
"Invalid prediction value from model: <value>" for an invalid prediction
value, surfaced as "Failed to get prediction. Last error: <recorded>", so
shape failures are distinguishable from transient API failures. -/
theorem claim2_shape_failure_no_retry :
    (∀ (oracle : Nat → CallResult) (prompt : String) (fuel attempt : Nat)
       (st : LoopState) (r : String),
      oracle attempt = .ok r →
      json_loads (extract_json_from_response (pyStrip r)) = none →
      runAttempts oracle prompt (fuel + 1) attempt st =
        .done { st with prompts := st.prompts ++ [prompt],
                        errMsg := some "Invalid JSON response format from model" }) ∧
    (∀ (oracle : Nat → CallResult) (prompt : String) (fuel attempt : Nat)
       (st : LoopState) (r pv : String) (kvs2 : List (String × PyVal)),
      oracle attempt = .ok r →
      json_loads (extract_json_from_response (pyStrip r)) = some (.dict kvs2) →
      dictGet kvs2 "prediction" = some (.str pv) →
      pv ≠ "Realistic" → pv ≠ "Not Realistic" →
      runAttempts oracle prompt (fuel + 1) attempt st =
        .done { st with prompts := st.prompts ++ [prompt],
                        errMsg := some ("Invalid prediction value from model: " ++ pv) }) ∧
    (∀ (kvs : List (String × PyVal)) (raw : String) (oracle : Nat → CallResult)
       (r : String),
      dictGet kvs "name" = some (.str raw) → pyNormalize raw ≠ "" →
      oracle 0 = .ok r →
      json_loads (extract_json_from_response (pyStrip r)) = none →
      predict (.value (.dict kvs)) oracle =
        ⟨⟨500, errObj "Failed to get prediction. Last error: Invalid JSON response format from model"⟩,
         [], [buildPrompt (pyNormalize raw)]⟩) ∧
    (∀ (kvs : List (String × PyVal)) (raw : String) (oracle : Nat → CallResult)
       (r pv : String) (kvs2 : List (String × PyVal)),
      dictGet kvs "name" = some (.str raw) → pyNormalize raw ≠ "" →
      oracle 0 = .ok r →
      json_loads (extract_json_from_response (pyStrip r)) = some (.dict kvs2) →
      dictGet kvs2 "prediction" = some (.str pv) →
      pv ≠ "Realistic" → pv ≠ "Not Realistic" →
      predict (.value (.dict kvs)) oracle =
        ⟨⟨500, errObj ("Failed to get prediction. Last error: " ++
            ("Invalid prediction value from model: " ++ pv))⟩,
         [], [buildPrompt (pyNormalize raw)]⟩) := by
  refine ⟨?_, ?_, ?_, ?_⟩
  · intro oracle prompt fuel attempt st r ho hparse
    have h : attemptOf (oracle attempt) = .shapeErr "Invalid JSON response format from model" := by
      rw [ho]; exact attemptOf_parsefail hparse
    exact runAttempts_shapeErr h
  · intro oracle prompt fuel attempt st r pv kvs2 ho hparse hpred h1 h2
    have h : attemptOf (oracle attempt) =
        .shapeErr ("Invalid prediction value from model: " ++ pv) := by
      rw [ho]; exact attemptOf_invalid hparse hpred h1 h2
    exact runAttempts_shapeErr h
  · intro kvs raw oracle r hname hnn ho hparse
    have h : attemptOf (oracle 0) = .shapeErr "Invalid JSON response format from model" := by
      rw [ho]; exact attemptOf_parsefail hparse
    rw [predict_reaches_loop hname hnn, runAttempts_shapeErr h]
    simp [postLoop, initLoopState,
      pyOrElse_some (show "Invalid JSON response format from model" ≠ "" by decide)]
  · intro kvs raw oracle r pv kvs2 hname hnn ho hparse hpred h1 h2
    have h : attemptOf (oracle 0) =
        .shapeErr ("Invalid prediction value from model: " ++ pv) := by
      rw [ho]; exact attemptOf_invalid hparse hpred h1 h2
    rw [predict_reaches_loop hname hnn, runAttempts_shapeErr h]
    have hne : "Invalid prediction value from model: " ++ pv ≠ "" :=
      append_ne_empty_left _ _ (by decide)
    simp [postLoop, initLoopState, pyOrElse_some hne]

/-- Oracle returning a reply that is not JSON. -/
def c2OracleA : Nat → CallResult := fun _ => .ok "not json"

/-- Oracle returning a JSON object with an unrecognized prediction value. -/
def c2OracleB : Nat → CallResult := fun _ => .ok "\x7b\"prediction\": \"maybe\"\x7d"

/-- Witness for C2 at concrete replies, attempts and requests. -/
theorem claim2_shape_failure_no_retry_witness :
    (runAttempts c2OracleA "p" 3 0 initLoopState =
      .done ⟨none, some "Invalid JSON response format from model", none, [], ["p"]⟩) ∧
    (runAttempts c2OracleB "p" 2 1 initLoopState =
      .done ⟨none, some ("Invalid prediction value from model: " ++ "maybe"), none, [], ["p"]⟩) ∧
    (predict (.value (.dict [("name", PyVal.str "Jo")])) c2OracleA =
      ⟨⟨500, errObj "Failed to get prediction. Last error: Invalid JSON response format from model"⟩,
       [], [buildPrompt (pyNormalize "Jo")]⟩) ∧
    (predict (.value (.dict [("name", PyVal.str "Jo")])) c2OracleB =
      ⟨⟨500, errObj ("Failed to get prediction. Last error: " ++
          ("Invalid prediction value from model: " ++ "maybe"))⟩,
       [], [buildPrompt (pyNormalize "Jo")]⟩) := by
  refine ⟨?_, ?_, ?_, ?_⟩
  · exact claim2_shape_failure_no_retry.1 c2OracleA "p" 2 0 initLoopState
      "not json" rfl rfl
  · exact claim2_shape_failure_no_retry.2.1 c2OracleB "p" 1 1 initLoopState
      "\x7b\"prediction\": \"maybe\"\x7d" "maybe" [("prediction", PyVal.str "maybe")]
      rfl rfl rfl (by decide) (by decide)
  · exact claim2_shape_failure_no_retry.2.2.1 [("name", PyVal.str "Jo")] "Jo"
      c2OracleA "not json" rfl (by decide) rfl rfl
  · exact claim2_shape_failure_no_retry.2.2.2 [("name", PyVal.str "Jo")] "Jo"
      c2OracleB "\x7b\"prediction\": \"maybe\"\x7d" "maybe"
      [("prediction", PyVal.str "maybe")] rfl (by decide) rfl rfl rfl
      (by decide) (by decide)

/-- C4: when the retry loop ends with a valid parsed prediction, a
"Realistic" verdict yields HTTP 200 with body exactly
`[name = normalized name, prediction = "Realistic", reason = " "]` (the
one-space reason), and a "Not Realistic" verdict yields HTTP 200 with body
exactly `[name = normalized name, prediction = "Not Realistic"]` — the
reason key omitted even when the model supplied a reason. -/
theorem claim4_success_bodies :
    (∀ (kvs : List (String × PyVal)) (raw : String) (oracle : Nat → CallResult)
       (r : String) (kvs2 : List (String × PyVal)),
      dictGet kvs "name" = some (.str raw) → pyNormalize raw ≠ "" →
      oracle 0 = .ok r →
      json_loads (extract_json_from_response (pyStrip r)) = some (.dict kvs2) →
      dictGet kvs2 "prediction" = some (.str "Realistic") →
      (predict (.value (.dict kvs)) oracle).response =
        ⟨200, .dict [("name", .str (pyNormalize raw)), ("prediction", .str "Realistic"),
                     ("reason", .str " ")]⟩) ∧
    (∀ (kvs : List (String × PyVal)) (raw : String) (oracle : Nat → CallResult)
       (r reasonText : String) (kvs2 : List (String × PyVal)),
      dictGet kvs "name" = some (.str raw) → pyNormalize raw ≠ "" →
      oracle 0 = .ok r →
      json_loads (extract_json_from_response (pyStrip r)) = some (.dict kvs2) →
      dictGet kvs2 "prediction" = some (.str "Not Realistic") →
      dictGet kvs2 "reason" = some (.str reasonText) →
      (predict (.value (.dict kvs)) oracle).response =
        ⟨200, .dict [("name", .str (pyNormalize raw)),
                     ("prediction", .str "Not Realistic")]⟩) := by
  constructor
  · intro kvs raw oracle r kvs2 hname hnn ho hparse hpred
    have h : attemptOf (oracle 0) = .parsedOk "Realistic" none := by
      rw [ho]; exact attemptOf_realistic hparse hpred
    rw [predict_reaches_loop hname hnn, runAttempts_parsedOk h]
    simp [postLoop, initLoopState]
  · intro kvs raw oracle r reasonText kvs2 hname hnn ho hparse hpred hreason
    have h : attemptOf (oracle 0) = .parsedOk "Not Realistic" (dictGet kvs2 "reason") := by
      rw [ho]; exact attemptOf_notRealistic hparse hpred
    rw [predict_reaches_loop hname hnn, runAttempts_parsedOk h]
    simp [postLoop, initLoopState]

/-- Oracle answering Realistic as bare JSON. -/
def c4OracleR : Nat → CallResult := fun _ => .ok "\x7b\"prediction\": \"Realistic\"\x7d"

/-- Oracle answering Not Realistic, with a reason, in a markdown fence. -/
def c4OracleN : Nat → CallResult := fun _ =>
  .ok "```json \x7b\"prediction\": \"Not Realistic\", \"reason\": \"too short\"\x7d ```"

/-- Witness for C4 at a concrete request and the two oracles. -/
theorem claim4_success_bodies_witness :
    ((predict (.value (.dict [("name", PyVal.str "  John   Doe ")])) c4OracleR).response =
      ⟨200, .dict [("name", .str (pyNormalize "  John   Doe ")),
                   ("prediction", .str "Realistic"), ("reason", .str " ")]⟩) ∧
    ((predict (.value (.dict [("name", PyVal.str "  John   Doe ")])) c4OracleN).response =
      ⟨200, .dict [("name", .str (pyNormalize "  John   Doe ")),
                   ("prediction", .str "Not Realistic")]⟩) := by
  constructor
  · exact claim4_success_bodies.1 [("name", PyVal.str "  John   Doe ")] "  John   Doe "
      c4OracleR "\x7b\"prediction\": \"Realistic\"\x7d"
      [("prediction", PyVal.str "Realistic")] rfl (by decide) rfl rfl rfl
  · exact claim4_success_bodies.2 [("name", PyVal.str "  John   Doe ")] "  John   Doe "
      c4OracleN "```json \x7b\"prediction\": \"Not Realistic\", \"reason\": \"too short\"\x7d ```"
      "too short"
      [("prediction", PyVal.str "Not Realistic"), ("reason", PyVal.str "too short")]
      rfl (by decide) rfl rfl rfl rfl

/-- An arbitrary concrete oracle for requests that never reach the loop. -/
def anyOracle : Nat → CallResult := fun _ => .raise "down"

/-- C5 counterexample: the empty JSON object is a body "in which the `name`
field is absent", yet the endpoint answers 400 with "Invalid JSON payload"
and not "No name provided" — `if not data:` is taken first because an empty
dict is falsy in Python. -/
theorem claim5_counterexample_empty_object :
    (predict (.value (.dict [])) anyOracle).response = ⟨400, errObj "Invalid JSON payload"⟩ ∧
    (predict (.value (.dict [])) anyOracle).response.body ≠ errObj "No name provided" ∧
    (predict (.value (.dict [])) anyOracle).prompts = [] := by
  refine ⟨rfl, ?_, rfl⟩
  intro h
  simp [predict, pyTruthy, errObj] at h

/-- C5 as amended: for a request whose body parses to a *non-empty* JSON
object in which `name` is absent, or maps to a string that normalizes to
the empty string, the endpoint returns HTTP 400 with
`[error = "No name provided"]` and no external completion call is made;
the empty object `\x7b\x7d` instead takes the falsy-body branch first and
returns HTTP 400 with `[error = "Invalid JSON payload"]`, likewise without
any external call. -/
theorem claim5_no_name_400 :
    (∀ (kvs : List (String × PyVal)) (oracle : Nat → CallResult),
      kvs ≠ [] → dictGet kvs "name" = none →
      predict (.value (.dict kvs)) oracle = ⟨⟨400, errObj "No name provided"⟩, [], []⟩) ∧
    (∀ (kvs : List (String × PyVal)) (oracle : Nat → CallResult) (raw : String),
      kvs ≠ [] → dictGet kvs "name" = some (.str raw) → pyNormalize raw = "" →
      predict (.value (.dict kvs)) oracle = ⟨⟨400, errObj "No name provided"⟩, [], []⟩) ∧
    (∀ oracle : Nat → CallResult,
      predict (.value (.dict [])) oracle = ⟨⟨400, errObj "Invalid JSON payload"⟩, [], []⟩) := by
  refine ⟨?_, ?_, fun oracle => rfl⟩
  · intro kvs oracle hne hget
    have ht : pyTruthy (.dict kvs) = true := by simp [pyTruthy, hne]
    have hd : (pyNormalize "").data = [] := rfl
    simp [predict, ht, hget, hd]
  · intro kvs oracle raw hne hget hempty
    have ht : pyTruthy (.dict kvs) = true := by simp [pyTruthy, hne]
    have hie : (pyNormalize raw).data.isEmpty = true := by
      rw [hempty]; rfl
    simp [predict, ht, hget, hie]

/-- Witness for the amended C5 at concrete requests. -/
theorem claim5_no_name_400_witness :
    (predict (.value (.dict [("x", PyVal.str "y")])) anyOracle =
      ⟨⟨400, errObj "No name provided"⟩, [], []⟩) ∧
    (predict (.value (.dict [("name", PyVal.str "   ")])) anyOracle =
      ⟨⟨400, errObj "No name provided"⟩, [], []⟩) ∧
    (predict (.value (.dict [])) anyOracle =
      ⟨⟨400, errObj "Invalid JSON payload"⟩, [], []⟩) := by
  refine ⟨?_, ?_, ?_⟩
  · exact claim5_no_name_400.1 [("x", PyVal.str "y")] anyOracle
      (List.cons_ne_nil _ _) rfl
  · exact claim5_no_name_400.2.1 [("name", PyVal.str "   ")] anyOracle "   "
      (List.cons_ne_nil _ _) rfl (by decide)
  · exact claim5_no_name_400.2.2 anyOracle

/-- C6, behavior at the failing input: when the request body is not valid
JSON, `request.get_json()` (default `silent=False`) raises Werkzeug's
`BadRequest`, which the handler's own catch-all `except Exception` converts
into HTTP 500 with "An unexpected server error occurred" — not the HTTP 400
"Invalid JSON payload" response, which is reachable only when the body
parses to a falsy value (such as `null` or the empty object).  No external
completion call is made. -/
theorem claim6_invalid_json_body_500 :
    (∀ oracle : Nat → CallResult,
      predict .raises oracle =
        ⟨⟨500, errObj "An unexpected server error occurred"⟩, [], []⟩) ∧
    (∀ oracle : Nat → CallResult,
      (predict .raises oracle).response.status ≠ 400) ∧
    (∀ oracle : Nat → CallResult,
      (predict .raises oracle).response.body ≠ errObj "Invalid JSON payload") := by
  refine ⟨fun _ => rfl, fun oracle h => ?_, fun oracle h => ?_⟩
  · have h5 : (predict .raises oracle).response.status = 500 := rfl
    omega
  · simp [predict, serverErr, errObj] at h

/-- C10: when the body is a JSON object whose `name` field is present but
not a string, `.strip()` raises `AttributeError`, the catch-all of lines
157-159 answers HTTP 500 with "An unexpected server error occurred" (never
any HTTP 400), and no external completion call is made. -/
theorem claim10_nonstring_name_500 (kvs : List (String × PyVal))
    (oracle : Nat → CallResult) (v : PyVal)
    (hget : dictGet kvs "name" = some v) (hns : ∀ s, v ≠ PyVal.str s) :
    predict (.value (.dict kvs)) oracle =
      ⟨⟨500, errObj "An unexpected server error occurred"⟩, [], []⟩ ∧
    (predict (.value (.dict kvs)) oracle).response.status ≠ 400 ∧
    (predict (.value (.dict kvs)) oracle).prompts = [] := by
  have hne : kvs ≠ [] := dictGet_isSome_ne_nil hget
  have ht : pyTruthy (.dict kvs) = true := by simp [pyTruthy, hne]
  have hmain : predict (.value (.dict kvs)) oracle =
      ⟨⟨500, errObj "An unexpected server error occurred"⟩, [], []⟩ := by
    cases v with
    | str s => exact absurd rfl (hns s)
    | vnull => simp [predict, ht, hget, serverErr]
    | bool b => simp [predict, ht, hget, serverErr]
    | num l => simp [predict, ht, hget, serverErr]
    | list xs => simp [predict, ht, hget, serverErr]
    | dict kvs2 => simp [predict, ht, hget, serverErr]
  refine ⟨hmain, ?_, ?_⟩
  · rw [hmain]; decide
  · rw [hmain]

/-- Witness for C10 with a numeric `name`. -/
theorem claim10_nonstring_name_500_witness :
    predict (.value (.dict [("name", PyVal.num "5")])) anyOracle =
      ⟨⟨500, errObj "An unexpected server error occurred"⟩, [], []⟩ ∧
    (predict (.value (.dict [("name", PyVal.num "5")])) anyOracle).response.status ≠ 400 ∧
    (predict (.value (.dict [("name", PyVal.num "5")])) anyOracle).prompts = [] :=
  claim10_nonstring_name_500 [("name", PyVal.num "5")] anyOracle (PyVal.num "5")
    rfl (fun _ h => PyVal.noConfusion h)

/-- The loop state carried by either loop exit. -/
def loopOutState : LoopOut → LoopState
  | .done st => st
  | .early _ st => st

/-- Whether a response's JSON body is an object. -/
def bodyIsObject (r : HttpResponse) : Bool :=
  match r.body with
  | .dict _ => true
  | _ => false

/-- The first key-value pair of a response's JSON object body, if any. -/
def bodyFirstField (r : HttpResponse) : Option (String × PyVal) :=
  match r.body with
  | .dict (kv :: _) => some kv
  | _ => none

theorem runAttempts_zero {oracle : Nat → CallResult} {prompt : String}
    {attempt : Nat} {st : LoopState} :
    runAttempts oracle prompt 0 attempt st = .done st := rfl

/-- Resource bound on the retry loop: entered with `fuel + attempt = 3`
iterations remaining from attempt index `attempt`, it adds at most
`2 - attempt` sleeps and `3 - attempt` issued calls, and an early return
always carries a 500 response with a single-key error body. -/
theorem runAttempts_bound (oracle : Nat → CallResult) (prompt : String) :
    ∀ (fuel attempt : Nat) (st : LoopState), fuel + attempt ≤ 3 →
      (loopOutState (runAttempts oracle prompt fuel attempt st)).sleeps.length ≤
        st.sleeps.length + (2 - attempt) ∧
      (loopOutState (runAttempts oracle prompt fuel attempt st)).prompts.length ≤
        st.prompts.length + (3 - attempt) ∧
      (∀ (resp : HttpResponse) (st' : LoopState),
        runAttempts oracle prompt fuel attempt st = .early resp st' →
        ∃ m, resp = ⟨500, errObj m⟩) := by
  intro fuel
  induction fuel with
  | zero =>
    intro attempt st h
    rw [runAttempts_zero]
    refine ⟨by simp [loopOutState], by simp [loopOutState], ?_⟩
    intro resp st' he
    exact absurd he (by simp)
  | succ fuel ih =>
    intro attempt st h
    rcases hA : attemptOf (oracle attempt) with ⟨p, r⟩ | ⟨m⟩ | ⟨m⟩
    · rw [runAttempts_parsedOk hA]
      refine ⟨by simp [loopOutState], by simp [loopOutState]; omega, ?_⟩
      intro resp st' he
      exact absurd he (by simp)
    · rw [runAttempts_shapeErr hA]
      refine ⟨by simp [loopOutState], by simp [loopOutState]; omega, ?_⟩
      intro resp st' he
      exact absurd he (by simp)
    · by_cases h2 : attempt < 2
      · rw [runAttempts_apiErr_mid h2 hA]
        have hrec := ih (attempt + 1)
          { st with prompts := st.prompts ++ [prompt],
                    errMsg := some (apiErrPre ++ m),
                    sleeps := st.sleeps ++ [2 ^ attempt] } (by omega)
        refine ⟨?_, ?_, hrec.2.2⟩
        · have := hrec.1
          simp only [List.length_append, List.length_cons, List.length_nil] at this ⊢
          omega
        · have := hrec.2.1
          simp only [List.length_append, List.length_cons, List.length_nil] at this ⊢
          omega
      · have ha2 : attempt = 2 := by omega
        subst ha2
        rw [runAttempts_apiErr_last hA]
        refine ⟨by simp [loopOutState], by simp [loopOutState], ?_⟩
        intro resp st' he
        refine ⟨apiErrPre ++ m, ?_⟩
        have := LoopOut.early.inj he
        exact this.1.symm

theorem postLoop_sleeps (name : String) (R : LoopOut) :
    (postLoop name R).sleeps = (loopOutState R).sleeps := by
  cases R with
  | early resp st => rfl
  | done st =>
    simp only [postLoop, loopOutState]
    split
    · rfl
    · split
      · rfl
      · rfl

theorem postLoop_prompts (name : String) (R : LoopOut) :
    (postLoop name R).prompts = (loopOutState R).prompts := by
  cases R with
  | early resp st => rfl
  | done st =>
    simp only [postLoop, loopOutState]
    split
    · rfl
    · split
      · rfl
      · rfl

/-- C9: for every request with a non-empty name after normalization, and
every behavior of the external call, the handler (a total function in this
embedding, so exactly one outcome per request) issues at most 3 external
calls, sleeps at most twice, and produces a single structured JSON
response whose status is 200 or 500 and whose body is a JSON object —
nothing escapes the handler uncaught. -/
theorem claim9_single_outcome (kvs : List (String × PyVal)) (raw : String)
    (oracle : Nat → CallResult)
    (hname : dictGet kvs "name" = some (.str raw))
    (hnn : pyNormalize raw ≠ "") :
    (predict (.value (.dict kvs)) oracle).prompts.length ≤ 3 ∧
    (predict (.value (.dict kvs)) oracle).sleeps.length ≤ 2 ∧
    ((predict (.value (.dict kvs)) oracle).response.status = 200 ∨
     (predict (.value (.dict kvs)) oracle).response.status = 500) ∧
    bodyIsObject (predict (.value (.dict kvs)) oracle).response = true := by
  rw [predict_reaches_loop hname hnn]
  have hb := runAttempts_bound oracle (buildPrompt (pyNormalize raw)) 3 0 initLoopState
    (by omega)
  refine ⟨?_, ?_, ?_⟩
  · rw [postLoop_prompts]
    have := hb.2.1
    simpa [initLoopState] using this
  · rw [postLoop_sleeps]
    have := hb.1
    simpa [initLoopState] using this
  · cases hout : runAttempts oracle (buildPrompt (pyNormalize raw)) 3 0 initLoopState with
    | done st =>
      simp only [postLoop]
      split
      · exact ⟨Or.inl rfl, rfl⟩
      · split
        · exact ⟨Or.inl rfl, rfl⟩
        · exact ⟨Or.inr rfl, rfl⟩
    | early resp st =>
      rcases hb.2.2 resp st hout with ⟨m, hm⟩
      subst hm
      exact ⟨Or.inr rfl, rfl⟩

/-- Witness for C9 at a concrete request and oracle. -/
theorem claim9_single_outcome_witness :
    (predict (.value (.dict [("name", PyVal.str "John")])) anyOracle).prompts.length ≤ 3 ∧
    (predict (.value (.dict [("name", PyVal.str "John")])) anyOracle).sleeps.length ≤ 2 ∧
    ((predict (.value (.dict [("name", PyVal.str "John")])) anyOracle).response.status = 200 ∨
     (predict (.value (.dict [("name", PyVal.str "John")])) anyOracle).response.status = 500) ∧
    bodyIsObject (predict (.value (.dict [("name", PyVal.str "John")])) anyOracle).response = true :=
  claim9_single_outcome [("name", PyVal.str "John")] "John" anyOracle rfl (by decide)

theorem matchCI_suffix {p s r : List Char} (h : matchCI p s = some r) : r <:+ s := by
  induction p generalizing s with
  | nil =>
    simp only [matchCI, Option.some.injEq] at h
    exact h ▸ List.suffix_refl s
  | cons a ps ih =>
    cases s with
    | nil => simp [matchCI] at h
    | cons c cs =>
      simp only [matchCI] at h
      split at h
      · exact (ih h).trans (List.suffix_cons c cs)
      · exact absurd h (by simp)

theorem scanBody_split {acc t r : List Char} (h : scanBody acc t = some r) :
    ∃ u rest, t = u ++ rbrace :: rest ∧ r = acc.reverse ++ u := by
  induction t generalizing acc with
  | nil => simp [scanBody] at h
  | cons c cs ih =>
    simp only [scanBody] at h
    split at h
    · rename_i hcond
      have hc : c = rbrace := by
        rcases Bool.and_eq_true_iff.mp hcond with ⟨h1, _⟩
        exact decide_eq_true_eq.mp h1
      refine ⟨[], cs, by simp [hc], ?_⟩
      simp only [Option.some.injEq] at h
      simp [h.symm]
    · rcases ih h with ⟨u, rest, hcs, hr⟩
      refine ⟨c :: u, rest, by simp [hcs], ?_⟩
      simpa using hr

theorem fenceAt_group {s g : List Char} (h : fenceAt s = some g) :
    g.head? = some lbrace ∧ g.getLast? = some rbrace ∧ g <:+: s := by
  rcases hm : matchCI fenceOpenPat s with _ | afterFence
  · simp [fenceAt, hm] at h
  · rcases hd : afterFence.dropWhile isPySpace with _ | ⟨c, t⟩
    · simp [fenceAt, hm, hd] at h
    · simp only [fenceAt, hm, hd] at h
      split at h
      · rcases hs : scanBody [] t with _ | body
        · rw [hs] at h; exact absurd h (by simp)
        · rw [hs] at h
          simp only [Option.some.injEq] at h
          rcases scanBody_split hs with ⟨u, rest, ht, hb⟩
          simp only [List.reverse_nil, List.nil_append] at hb
          subst hb
          subst h
          rename_i hc
          refine ⟨rfl, ?_, ?_⟩
          · have : lbrace :: (body ++ [rbrace]) = (lbrace :: body) ++ [rbrace] := by simp
            rw [this, List.getLast?_concat]
          · have hpre : lbrace :: (body ++ [rbrace]) <+: c :: t := by
              rw [hc, ht]
              exact ⟨rest, by simp⟩
            have hsuf : c :: t <:+ s := by
              have h1 : c :: t <:+ afterFence := hd ▸ List.dropWhile_suffix isPySpace
              exact h1.trans (matchCI_suffix hm)
            exact hpre.isInfix.trans hsuf.isInfix
      · exact absurd h (by simp)

theorem reSearchFence_group {s g : List Char} (h : reSearchFence s = some g) :
    g.head? = some lbrace ∧ g.getLast? = some rbrace ∧ g <:+: s := by
  induction s with
  | nil => simp [reSearchFence] at h
  | cons c cs ih =>
    simp only [reSearchFence] at h
    rcases hf : fenceAt (c :: cs) with _ | g'
    · rw [hf] at h
      simp only at h
      rcases ih h with ⟨h1, h2, h3⟩
      exact ⟨h1, h2, h3.trans (List.suffix_cons c cs).isInfix⟩
    · rw [hf] at h
      simp only [Option.some.injEq] at h
      subst h
      exact fenceAt_group hf

/-- C3 counterexample: on an input with no fenced block and whose trimmed
text is not brace-delimited, `extract_json_from_response` does not pass the
raw input through unchanged — it returns the stripped text ("hello" for
"  hello "), because the final `return text` executes after
`text = text.strip()`. -/
theorem claim3_counterexample_fallback_strips :
    reSearchFence ("  hello ").data = none ∧
    extract_json_from_response "  hello " = "hello" ∧
    extract_json_from_response "  hello " ≠ "  hello " := by
  refine ⟨rfl, rfl, ?_⟩
  decide

/-- C3 as amended: `extract_json_from_response` is a pure function on
strings such that, when the case-insensitive fenced pattern matches, the
result is the regex group — a contiguous infix of the input starting with
an opening brace and ending with a closing one (in particular the fenced
Realistic example yields its inner object); when the pattern does not
match, the result is the whitespace-trimmed input (which is the trimmed
text itself whenever that trimmed text is brace-delimited, and the trimmed
— not raw — text otherwise). -/
theorem claim3_extraction_behavior :
    (∀ (s : String) (g : List Char), reSearchFence s.data = some g →
      extract_json_from_response s = String.mk g ∧
      g.head? = some lbrace ∧ g.getLast? = some rbrace ∧ g <:+: s.data) ∧
    (∀ s : String, reSearchFence s.data = none →
      extract_json_from_response s = pyStrip s) ∧
    extract_json_from_response "```json \x7b\"prediction\":\"Realistic\"\x7d ```" =
      "\x7b\"prediction\":\"Realistic\"\x7d" ∧
    extract_json_from_response "  \x7b\"a\": 1\x7d " = "\x7b\"a\": 1\x7d" := by
  refine ⟨?_, ?_, rfl, rfl⟩
  · intro s g h
    refine ⟨?_, reSearchFence_group h⟩
    simp [extract_json_from_response, extractL, h]
  · intro s h
    simp [extract_json_from_response, extractL, h, pyStrip]

/-- Witness for the amended C3: the fenced part applied at a concrete
fenced input, and the fallback part at a concrete unfenced input. -/
theorem claim3_extraction_behavior_witness :
    (extract_json_from_response "```json \x7b\"a\":2\x7d ```" =
       String.mk ("\x7b\"a\":2\x7d").data ∧
     ("\x7b\"a\":2\x7d").data.head? = some lbrace ∧
     ("\x7b\"a\":2\x7d").data.getLast? = some rbrace ∧
     ("\x7b\"a\":2\x7d").data <:+: ("```json \x7b\"a\":2\x7d ```").data) ∧
    extract_json_from_response " plain " = pyStrip " plain " := by
  constructor
  · exact claim3_extraction_behavior.1 "```json \x7b\"a\":2\x7d ```"
      ("\x7b\"a\":2\x7d").data rfl
  · exact claim3_extraction_behavior.2.1 " plain " rfl

/-! ## The algebra of normalization

Normalization is analysed through the word decomposition of a string: the
maximal whitespace-free tokens, joined by single spaces.  Both the code's
strip-collapse-strip pipeline and the specification's collapse-then-trim
description compute exactly the space-joined word list. -/

/-- The maximal whitespace-free tokens of a character list, in order. -/
def words : List Char → List (List Char)
  | [] => []
  | c :: rest =>
    if isPySpace c then words rest
    else (c :: rest.takeWhile (fun d => ! isPySpace d)) ::
      words (rest.dropWhile (fun d => ! isPySpace d))
termination_by l => l.length
decreasing_by
  · simp
  · have := (List.dropWhile_sublist (l := rest) (fun d => ! isPySpace d)).length_le
    simp only [List.length_cons]
    omega

/-- Join tokens with single spaces. -/
def joinWords : List (List Char) → List Char
  | [] => []
  | [w] => w
  | w :: ws => w ++ ' ' :: joinWords ws

theorem joinWords_cons_ne {w : List Char} {L : List (List Char)} (h : L ≠ []) :
    joinWords (w :: L) = w ++ ' ' :: joinWords L := by
  cases L with
  | nil => exact absurd rfl h
  | cons v r => rfl

theorem collapseAux_true_eq {l : List Char} :
    collapseAux true l = collapseAux false (l.dropWhile isPySpace) := by
  induction l with
  | nil => rfl
  | cons c r ih =>
    by_cases hc : isPySpace c
    · simp [collapseAux, hc, List.dropWhile_cons, ih]
    · simp [collapseAux, hc, List.dropWhile_cons]

theorem collapseAux_nonws_append {w y : List Char}
    (hw : ∀ c ∈ w, ¬ isPySpace c) :
    collapseAux false (w ++ y) = w ++ collapseAux false y := by
  induction w with
  | nil => rfl
  | cons c r ih =>
    have hc : ¬ isPySpace c := hw c (by simp)
    simp only [List.cons_append, collapseAux, hc, Bool.false_eq_true, if_false]
    exact congrArg (c :: ·) (ih (fun d hd => hw d (by simp [hd])))

theorem lstripWs_cons_ws {c : Char} {l : List Char} (h : isPySpace c) :
    lstripWs (c :: l) = lstripWs l := by
  simp [lstripWs, List.dropWhile_cons, h]

theorem lstripWs_cons_nonws {c : Char} {l : List Char} (h : ¬ isPySpace c) :
    lstripWs (c :: l) = c :: l := by
  simp [lstripWs, List.dropWhile_cons, h]

theorem stripWs_cons_ws {c : Char} {l : List Char} (h : isPySpace c) :
    stripWs (c :: l) = stripWs l := by
  simp [stripWs, lstripWs_cons_ws h]

theorem dropWhile_all_not {p : Char → Bool} {l : List Char}
    (h : ∀ c ∈ l, ¬ p c) : l.dropWhile p = l := by
  cases l with
  | nil => rfl
  | cons c r =>
    have : ¬ p c := h c (by simp)
    simp [List.dropWhile_cons, this]

theorem rstripWs_all_nonws {l : List Char} (h : ∀ c ∈ l, ¬ isPySpace c) :
    rstripWs l = l := by
  unfold rstripWs
  rw [dropWhile_all_not (by intro c hc; exact h c (List.mem_reverse.mp hc))]
  exact List.reverse_reverse l

theorem dropWhile_append_of_ne_nil {p : Char → Bool} {x y : List Char}
    (h : x.dropWhile p ≠ []) :
    (x ++ y).dropWhile p = x.dropWhile p ++ y := by
  induction x with
  | nil => exact absurd rfl h
  | cons c r ih =>
    by_cases hc : p c
    · simp only [List.dropWhile_cons, hc, if_true, List.cons_append] at h ⊢
      exact ih h
    · simp [List.dropWhile_cons, hc]

theorem rstripWs_append_of_ne_nil {a b : List Char} (h : rstripWs b ≠ []) :
    rstripWs (a ++ b) = a ++ rstripWs b := by
  have hb : b.reverse.dropWhile isPySpace ≠ [] := by
    intro hx
    exact h (by simp [rstripWs, hx])
  unfold rstripWs
  rw [List.reverse_append, dropWhile_append_of_ne_nil hb, List.reverse_append,
    List.reverse_reverse]

theorem words_dropWhile_ws {l : List Char} :
    words (l.dropWhile isPySpace) = words l := by
  induction l with
  | nil => rfl
  | cons c r ih =>
    by_cases hc : isPySpace c
    · rw [List.dropWhile_cons, if_pos hc, ih, words]
      simp [hc]
    · rw [List.dropWhile_cons, if_neg hc]

theorem words_eq_nil_iff {l : List Char} :
    words l = [] ↔ ∀ c ∈ l, isPySpace c := by
  induction l with
  | nil => simp [words]
  | cons c r ih =>
    by_cases hc : isPySpace c
    · rw [words]
      simp [hc, ih]
    · rw [words]
      simp [hc]

theorem words_tokens {l : List Char} :
    ∀ w ∈ words l, w ≠ [] ∧ ∀ c ∈ w, ¬ isPySpace c := by
  induction l using words.induct with
  | case1 => simp [words]
  | case2 c rest hc ih =>
    rw [words, if_pos (by simpa using hc)]
    exact ih
  | case3 c rest hc ih =>
    rw [words, if_neg (by simpa using hc)]
    intro w hw
    rcases List.mem_cons.mp hw with hw | hw
    · subst hw
      refine ⟨by simp, ?_⟩
      intro d hd
      rcases List.mem_cons.mp hd with hd | hd
      · subst hd; simpa using hc
      · have := List.mem_takeWhile_imp hd
        simpa using this
    · exact ih w hw

theorem dropWhile_head_not {p : Char → Bool} {l : List Char} {c : Char}
    {r : List Char} (h : l.dropWhile p = c :: r) : ¬ p c := by
  induction l with
  | nil => simp [List.dropWhile] at h
  | cons a as ih =>
    rw [List.dropWhile_cons] at h
    split at h
    · exact ih h
    · rename_i ha
      cases h
      exact ha

theorem strip_collapse_dropWhile {y : List Char} :
    stripWs (collapseAux false (y.dropWhile isPySpace)) =
      stripWs (collapseAux false y) := by
  induction y with
  | nil => rfl
  | cons c r ih =>
    by_cases hc : isPySpace c
    · rw [List.dropWhile_cons, if_pos hc, ih]
      show stripWs (collapseAux false r) = stripWs (collapseAux false (c :: r))
      rw [collapseAux]
      simp only [hc, if_true, Bool.false_eq_true, if_false]
      rw [stripWs_cons_ws (by decide), collapseAux_true_eq, ih]
    · rw [List.dropWhile_cons, if_neg hc]

theorem lstrip_collapse_of_head_nonws {t : List Char}
    (h : t.dropWhile isPySpace = t) :
    lstripWs (collapseAux false t) = collapseAux false t := by
  cases t with
  | nil => rfl
  | cons c r =>
    have hc : ¬ isPySpace c := dropWhile_head_not h
    rw [collapseAux]
    simp only [hc, Bool.false_eq_true, if_false]
    exact lstripWs_cons_nonws hc

theorem rstripWs_eq_nil_iff {l : List Char} :
    rstripWs l = [] ↔ ∀ c ∈ l, isPySpace c := by
  unfold rstripWs
  rw [List.reverse_eq_nil_iff, List.dropWhile_eq_nil_iff]
  constructor
  · intro h c hc
    exact h c (List.mem_reverse.mpr hc)
  · intro h c hc
    exact h c (List.mem_reverse.mp hc)

theorem joinWords_ne_nil {L : List (List Char)} (hL : L ≠ [])
    (hw : ∀ w ∈ L, w ≠ []) : joinWords L ≠ [] := by
  cases L with
  | nil => exact absurd rfl hL
  | cons w r =>
    cases r with
    | nil => simpa [joinWords] using hw w (by simp)
    | cons v r2 => simp [joinWords]

theorem rstripWs_append_ws {x : List Char} {a : Char} (h : isPySpace a) :
    rstripWs (x ++ [a]) = rstripWs x := by
  unfold rstripWs
  rw [List.reverse_append]
  simp [List.dropWhile_cons, h]

theorem collapse_head_nonws {t : List Char} (h : t.dropWhile isPySpace = t)
    {e : Char} {zs : List Char} (hz : collapseAux false t = e :: zs) :
    ¬ isPySpace e := by
  cases t with
  | nil => simp [collapseAux] at hz
  | cons c r =>
    have hc : ¬ isPySpace c := dropWhile_head_not h
    rw [collapseAux] at hz
    simp only [hc, Bool.false_eq_true, if_false, List.cons.injEq] at hz
    exact hz.1 ▸ hc

theorem strip_collapse_eq_joinWords (l : List Char) :
    stripWs (collapseWs l) = joinWords (words l) := by
  induction l using words.induct with
  | case1 => rw [words]; rfl
  | case2 c rest hc ih =>
    have hc' : isPySpace c = true := by simpa using hc
    rw [words, if_pos hc']
    show stripWs (collapseAux false (c :: rest)) = joinWords (words rest)
    rw [collapseAux]
    simp only [hc', if_true, Bool.false_eq_true, if_false]
    rw [stripWs_cons_ws (by decide), collapseAux_true_eq, strip_collapse_dropWhile]
    exact ih
  | case3 c rest hc ih =>
    have hc' : ¬ isPySpace c = true := by simpa using hc
    rw [words, if_neg hc']
    have hx : ∀ d ∈ (c :: rest.takeWhile (fun d => ! isPySpace d)), ¬ isPySpace d := by
      intro d hd
      rcases List.mem_cons.mp hd with hd | hd
      · subst hd; exact hc'
      · have := List.mem_takeWhile_imp hd
        simpa using this
    have hsplit : c :: rest =
        (c :: rest.takeWhile (fun d => ! isPySpace d)) ++
          rest.dropWhile (fun d => ! isPySpace d) := by
      rw [List.cons_append, List.takeWhile_append_dropWhile]
    show stripWs (collapseAux false (c :: rest)) = _
    rw [hsplit, collapseAux_nonws_append hx]
    rw [show stripWs ((c :: rest.takeWhile (fun d => ! isPySpace d)) ++
          collapseAux false (rest.dropWhile (fun d => ! isPySpace d))) =
        rstripWs (lstripWs ((c :: rest.takeWhile (fun d => ! isPySpace d)) ++
          collapseAux false (rest.dropWhile (fun d => ! isPySpace d)))) from rfl]
    rw [List.cons_append, lstripWs_cons_nonws hc', ← List.cons_append]
    cases hdw : rest.dropWhile (fun d => ! isPySpace d) with
    | nil =>
      show rstripWs ((c :: rest.takeWhile (fun d => ! isPySpace d)) ++ []) = _
      rw [List.append_nil, rstripWs_all_nonws hx, words]
      rfl
    | cons d dw2 =>
      have hd : isPySpace d := by
        have := dropWhile_head_not (p := fun d => ! isPySpace d) hdw
        simpa using this
      rw [hdw] at ih
      have hz : collapseAux false (d :: dw2) =
          ' ' :: collapseAux false (dw2.dropWhile isPySpace) := by
        rw [collapseAux]
        simp only [hd, if_true, Bool.false_eq_true, if_false, collapseAux_true_eq]
      have hih : rstripWs (collapseAux false (dw2.dropWhile isPySpace)) =
          joinWords (words (d :: dw2)) := by
        rw [← ih]
        unfold collapseWs
        rw [hz, stripWs_cons_ws (by decide)]
        show _ = rstripWs (lstripWs (collapseAux false (dw2.dropWhile isPySpace)))
        rw [lstrip_collapse_of_head_nonws (List.dropWhile_idempotent _ _)]
      rw [hz]
      by_cases hwd : words (d :: dw2) = []
      · rw [hwd] at hih ⊢
        have hznil : collapseAux false (dw2.dropWhile isPySpace) = [] := by
          rcases hcz : collapseAux false (dw2.dropWhile isPySpace) with _ | ⟨e, zs⟩
          · rfl
          · rw [hcz] at hih
            have hall := rstripWs_eq_nil_iff.mp hih
            have he : isPySpace e := hall e (by simp)
            exact absurd he (collapse_head_nonws (List.dropWhile_idempotent _ _) hcz)
        rw [hznil]
        show rstripWs ((c :: rest.takeWhile (fun d => ! isPySpace d)) ++ [' ']) = _
        rw [rstripWs_append_ws (by decide), rstripWs_all_nonws hx]
        rfl
      · have hne2 : joinWords (words (d :: dw2)) ≠ [] :=
          joinWords_ne_nil hwd (fun w hw => (words_tokens w hw).1)
        have hcz : rstripWs (collapseAux false (dw2.dropWhile isPySpace)) ≠ [] := by
          rw [hih]; exact hne2
        have h3 : rstripWs (' ' :: collapseAux false (dw2.dropWhile isPySpace)) =
            ' ' :: rstripWs (collapseAux false (dw2.dropWhile isPySpace)) := by
          have := @rstripWs_append_of_ne_nil [' ']
            (collapseAux false (dw2.dropWhile isPySpace)) hcz
          simpa using this
        have h4 : rstripWs (' ' :: collapseAux false (dw2.dropWhile isPySpace)) ≠ [] := by
          rw [h3]; simp
        rw [show (c :: rest.takeWhile (fun d => ! isPySpace d)) ++
              ' ' :: collapseAux false (dw2.dropWhile isPySpace) =
            (c :: rest.takeWhile (fun d => ! isPySpace d)) ++
              (' ' :: collapseAux false (dw2.dropWhile isPySpace)) from rfl]
        rw [rstripWs_append_of_ne_nil h4, h3, hih, joinWords_cons_ne hwd]

theorem takeWhile_append_allws {z x : List Char}
    (hz : ∀ c ∈ z, isPySpace c) :
    (x ++ z).takeWhile (fun d => ! isPySpace d) = x.takeWhile (fun d => ! isPySpace d) := by
  induction x with
  | nil =>
    cases z with
    | nil => rfl
    | cons a zs =>
      have := hz a (by simp)
      simp [List.takeWhile_cons, this]
  | cons c r ih =>
    by_cases hc : isPySpace c
    · simp [List.takeWhile_cons, hc]
    · simp only [List.cons_append, List.takeWhile_cons, hc]
      simp only [Bool.not_false, if_true]
      rw [ih]

theorem words_append_allws {z : List Char} (hz : ∀ c ∈ z, isPySpace c) :
    ∀ x : List Char, words (x ++ z) = words x := by
  intro x
  induction x using words.induct with
  | case1 =>
    show words z = words []
    rw [words_eq_nil_iff.mpr hz, words]
  | case2 c rest hc ih =>
    have hc' : isPySpace c = true := by simpa using hc
    rw [List.cons_append, words, if_pos hc', ih, words, if_pos hc']
  | case3 c rest hc ih =>
    have hc' : ¬ isPySpace c = true := by simpa using hc
    rw [List.cons_append, words, if_neg hc', words, if_neg hc']
    rw [takeWhile_append_allws hz]
    by_cases hall : rest.dropWhile (fun d => ! isPySpace d) = []
    · rw [List.dropWhile_append, hall]
      simp only [List.isEmpty_nil, if_true]
      rw [dropWhile_all_not (by intro c0 hc0; simpa using hz c0 hc0),
        words_eq_nil_iff.mpr hz, words]
    · have hne : (rest.dropWhile (fun d => ! isPySpace d)).isEmpty = false := by
        rw [List.isEmpty_eq_false]
        exact hall
      rw [List.dropWhile_append]
      simp only [hne, Bool.false_eq_true, if_false]
      exact congrArg _ ih

theorem rstripWs_decomposition (m : List Char) :
    ∃ z, m = rstripWs m ++ z ∧ ∀ c ∈ z, isPySpace c := by
  refine ⟨(m.reverse.takeWhile isPySpace).reverse, ?_, ?_⟩
  · conv_lhs => rw [← List.reverse_reverse m,
      ← List.takeWhile_append_dropWhile isPySpace m.reverse]
    rw [List.reverse_append]
    rfl
  · intro c hc
    exact List.mem_takeWhile_imp (List.mem_reverse.mp hc)

theorem words_rstripWs (m : List Char) : words (rstripWs m) = words m := by
  rcases rstripWs_decomposition m with ⟨z, hm, hz⟩
  conv_rhs => rw [hm]
  rw [words_append_allws hz]

theorem words_stripWs (l : List Char) : words (stripWs l) = words l := by
  show words (rstripWs (lstripWs l)) = words l
  rw [words_rstripWs]
  exact words_dropWhile_ws

theorem normalizeL_eq_joinWords (l : List Char) :
    normalizeL l = joinWords (words l) := by
  unfold normalizeL
  rw [show stripWs (collapseWs (stripWs l)) = joinWords (words (stripWs l)) from
    strip_collapse_eq_joinWords (stripWs l), words_stripWs]

theorem takeWhile_all_nonws {w : List Char} (h : ∀ c ∈ w, ¬ isPySpace c) :
    w.takeWhile (fun d => ! isPySpace d) = w := by
  induction w with
  | nil => rfl
  | cons c r ih =>
    have hc : ¬ isPySpace c := h c (by simp)
    simp only [List.takeWhile_cons, hc, Bool.not_false, if_true]
    rw [ih (fun d hd => h d (by simp [hd]))]

theorem dropWhile_all_nonws {w : List Char} (h : ∀ c ∈ w, ¬ isPySpace c) :
    w.dropWhile (fun d => ! isPySpace d) = [] := by
  rw [List.dropWhile_eq_nil_iff]
  intro c hc
  simpa using h c hc

theorem takeWhile_mid {w' j : List Char} {a : Char}
    (hw : ∀ c ∈ w', ¬ isPySpace c) (ha : isPySpace a) :
    (w' ++ a :: j).takeWhile (fun d => ! isPySpace d) = w' := by
  induction w' with
  | nil => simp [List.takeWhile_cons, ha]
  | cons c r ih =>
    have hc : ¬ isPySpace c := hw c (by simp)
    simp only [List.cons_append, List.takeWhile_cons, hc, Bool.not_false, if_true]
    rw [ih (fun d hd => hw d (by simp [hd]))]

theorem dropWhile_mid {w' j : List Char} {a : Char}
    (hw : ∀ c ∈ w', ¬ isPySpace c) (ha : isPySpace a) :
    (w' ++ a :: j).dropWhile (fun d => ! isPySpace d) = a :: j := by
  induction w' with
  | nil => simp [List.dropWhile_cons, ha]
  | cons c r ih =>
    have hc : ¬ isPySpace c := hw c (by simp)
    simp only [List.cons_append, List.dropWhile_cons, hc, Bool.not_false, if_true]
    exact ih (fun d hd => hw d (by simp [hd]))

theorem words_joinWords {L : List (List Char)}
    (h : ∀ w ∈ L, w ≠ [] ∧ ∀ c ∈ w, ¬ isPySpace c) :
    words (joinWords L) = L := by
  induction L with
  | nil => rw [joinWords.eq_1, words]
  | cons w r ih =>
    rcases h w (by simp) with ⟨hwne, hwnws⟩
    cases r with
    | nil =>
      show words w = [w]
      cases w with
      | nil => exact absurd rfl hwne
      | cons c w' =>
        have hc : ¬ isPySpace c = true := hwnws c (by simp)
        rw [words, if_neg hc,
          takeWhile_all_nonws (fun d hd => hwnws d (by simp [hd])),
          dropWhile_all_nonws (fun d hd => hwnws d (by simp [hd])), words]
    | cons v r2 =>
      have hj : joinWords (w :: v :: r2) = w ++ ' ' :: joinWords (v :: r2) := rfl
      rw [hj]
      cases w with
      | nil => exact absurd rfl hwne
      | cons c w' =>
        have hc : ¬ isPySpace c = true := hwnws c (by simp)
        rw [List.cons_append, words, if_neg hc,
          takeWhile_mid (fun d hd => hwnws d (by simp [hd])) (by decide),
          dropWhile_mid (fun d hd => hwnws d (by simp [hd])) (by decide),
          words, if_pos (by decide)]
        rw [ih (fun u hu => h u (by simp [hu]))]

theorem runAttempts_prompt_mem (oracle : Nat → CallResult) (prompt : String) :
    ∀ (fuel attempt : Nat) (st : LoopState),
      ∀ q ∈ (loopOutState (runAttempts oracle prompt fuel attempt st)).prompts,
        q ∈ st.prompts ∨ q = prompt := by
  intro fuel
  induction fuel with
  | zero =>
    intro attempt st q hq
    rw [runAttempts_zero] at hq
    exact Or.inl hq
  | succ fuel ih =>
    intro attempt st q hq
    rcases hA : attemptOf (oracle attempt) with ⟨p, r⟩ | ⟨m⟩ | ⟨m⟩
    · rw [runAttempts_parsedOk hA] at hq
      simp only [loopOutState] at hq
      rcases List.mem_append.mp hq with hq | hq
      · exact Or.inl hq
      · exact Or.inr (by simpa using hq)
    · rw [runAttempts_shapeErr hA] at hq
      simp only [loopOutState] at hq
      rcases List.mem_append.mp hq with hq | hq
      · exact Or.inl hq
      · exact Or.inr (by simpa using hq)
    · by_cases h2 : attempt < 2
      · rw [runAttempts_apiErr_mid h2 hA] at hq
        rcases ih (attempt + 1) _ q hq with hq2 | hq2
        · simp only at hq2
          rcases List.mem_append.mp hq2 with hq2 | hq2
          · exact Or.inl hq2
          · exact Or.inr (by simpa using hq2)
        · exact Or.inr hq2
      · rcases Nat.lt_or_ge attempt 3 with h3 | h3
        · have ha2 : attempt = 2 := by omega
          subst ha2
          rw [runAttempts_apiErr_last hA] at hq
          simp only [loopOutState] at hq
          rcases List.mem_append.mp hq with hq | hq
          · exact Or.inl hq
          · exact Or.inr (by simpa using hq)
        · rw [runAttempts] at hq
          have hnm : ¬ attempt < maxRetries - 1 := by simp [maxRetries]; omega
          simp only [hA, hnm, if_false, loopOutState] at hq
          rcases List.mem_append.mp hq with hq | hq
          · exact Or.inl hq
          · exact Or.inr (by simpa using hq)

/-- Any 200 response echoes the normalized name as its first body field. -/
theorem predict_200_echoes_name {kvs : List (String × PyVal)} {raw : String}
    {oracle : Nat → CallResult}
    (hname : dictGet kvs "name" = some (.str raw))
    (hnn : pyNormalize raw ≠ "")
    (h200 : (predict (.value (.dict kvs)) oracle).response.status = 200) :
    ∃ rest, (predict (.value (.dict kvs)) oracle).response.body =
      PyVal.dict (("name", .str (pyNormalize raw)) :: rest) := by
  rw [predict_reaches_loop hname hnn] at h200 ⊢
  have hb := runAttempts_bound oracle (buildPrompt (pyNormalize raw)) 3 0 initLoopState
    (by omega)
  cases hout : runAttempts oracle (buildPrompt (pyNormalize raw)) 3 0 initLoopState with
  | early resp st =>
    rcases hb.2.2 resp st hout with ⟨m, hm⟩
    rw [hout, hm] at h200
    simp [postLoop] at h200
  | done st =>
    rw [hout] at h200
    by_cases h1 : st.prediction = some "Realistic"
    · rw [show postLoop (pyNormalize raw) (LoopOut.done st) =
          ⟨⟨200, .dict [("name", .str (pyNormalize raw)), ("prediction", .str "Realistic"),
              ("reason", .str " ")]⟩, st.sleeps, st.prompts⟩ from by
          simp only [postLoop, if_pos h1]]
      exact ⟨_, rfl⟩
    · by_cases h2 : st.prediction = some "Not Realistic"
      · rw [show postLoop (pyNormalize raw) (LoopOut.done st) =
            ⟨⟨200, .dict [("name", .str (pyNormalize raw)),
                ("prediction", .str "Not Realistic")]⟩, st.sleeps, st.prompts⟩ from by
            simp only [postLoop, if_neg h1, if_pos h2]]
        exact ⟨_, rfl⟩
      · rw [show postLoop (pyNormalize raw) (LoopOut.done st) =
            ⟨⟨500, errObj ("Failed to get prediction. Last error: " ++
                pyOrElse st.errMsg "Unknown error after retries")⟩,
              st.sleeps, st.prompts⟩ from by
            simp only [postLoop, if_neg h1, if_neg h2]] at h200
        simp at h200

/-- C7: the normalization of lines 45-46 (strip, collapse runs, strip)
computes exactly the specification's NormalizedName (trim plus collapse of
every internal whitespace run to one space): the two agree on every string,
"  John   Doe " normalizes to "John Doe", and for every valid request the
name embedded in every issued prompt and echoed in any 200 response is that
normalized name. -/
theorem claim7_normalized_name :
    (∀ s : String, pyNormalize s = specNormalize s) ∧
    pyNormalize "  John   Doe " = "John Doe" ∧
    (∀ (kvs : List (String × PyVal)) (raw : String) (oracle : Nat → CallResult),
      dictGet kvs "name" = some (.str raw) → pyNormalize raw ≠ "" →
      (∀ q ∈ (predict (.value (.dict kvs)) oracle).prompts,
        q = buildPrompt (specNormalize raw)) ∧
      ((predict (.value (.dict kvs)) oracle).response.status = 200 →
        bodyFirstField (predict (.value (.dict kvs)) oracle).response =
          some ("name", .str (specNormalize raw)))) := by
  have hps : ∀ s : String, pyNormalize s = specNormalize s := by
    intro s
    unfold pyNormalize specNormalize
    rw [normalizeL_eq_joinWords, strip_collapse_eq_joinWords]
  refine ⟨hps, rfl, ?_⟩
  intro kvs raw oracle hname hnn
  constructor
  · intro q hq
    rw [predict_reaches_loop hname hnn, postLoop_prompts] at hq
    rcases runAttempts_prompt_mem oracle (buildPrompt (pyNormalize raw)) 3 0
      initLoopState q hq with hq2 | hq2
    · exact absurd hq2 (by simp [initLoopState])
    · rw [hq2, hps raw]
  · intro h200
    rw [← hps raw]
    rcases predict_200_echoes_name hname hnn h200 with ⟨rest, hbody⟩
    unfold bodyFirstField
    rw [hbody]

/-- Witness for C7's request-level part at a concrete request and oracle:
the single issued prompt embeds the normalized name, and the 200 response
echoes it as the first body field. -/
theorem claim7_normalized_name_witness :
    buildPrompt (pyNormalize "  John   Doe ") = buildPrompt (specNormalize "  John   Doe ") ∧
    bodyFirstField (predict (.value (.dict [("name", PyVal.str "  John   Doe ")])) c4OracleR).response =
      some ("name", .str (specNormalize "  John   Doe ")) := by
  have hname : dictGet [("name", PyVal.str "  John   Doe ")] "name" =
      some (.str "  John   Doe ") := rfl
  have hpr : (predict (.value (.dict [("name", PyVal.str "  John   Doe ")])) c4OracleR).prompts =
      [buildPrompt (pyNormalize "  John   Doe ")] := by
    rw [predict_reaches_loop hname (by decide),
      runAttempts_parsedOk (show attemptOf (c4OracleR 0) = .parsedOk "Realistic" none from rfl)]
    simp [postLoop, initLoopState]
  have h := claim7_normalized_name.2.2 [("name", PyVal.str "  John   Doe ")] "  John   Doe "
    c4OracleR hname (by decide)
  refine ⟨h.1 (buildPrompt (pyNormalize "  John   Doe ")) ?_, h.2 rfl⟩
  rw [hpr]
  exact List.mem_singleton.mpr rfl

/-- C8: normalization is idempotent — for every string, normalizing an
already-normalized string returns it unchanged. -/
theorem claim8_normalize_idempotent (s : String) :
    pyNormalize (pyNormalize s) = pyNormalize s := by
  have key : ∀ l : List Char, normalizeL (normalizeL l) = normalizeL l := by
    intro l
    calc normalizeL (normalizeL l)
        = normalizeL (joinWords (words l)) := by rw [normalizeL_eq_joinWords l]
      _ = joinWords (words (joinWords (words l))) := normalizeL_eq_joinWords _
      _ = joinWords (words l) := by rw [words_joinWords words_tokens]
      _ = normalizeL l := (normalizeL_eq_joinWords l).symm
  exact congrArg String.mk (key s.data)
